import Mathlib

/-!
Verification of the streaming gesture recognizer of
`Proyecto-Automata-IoT` (files `Codigo/BackEnd/Entrenamiento/Entrenamiento.py`,
`run_detector`, and `Codigo/BackEnd/Entrenamiento/Testing_Final.py`,
`run_integrated_detector`).

Modelling conventions:
* Python floats are modelled as rationals `ℚ`; `float('inf')` / `np.inf`
  is modelled with `WithTop ℚ` (written `Val` below), whose `⊤` behaves
  like IEEE `inf` under `min`, `+` and order comparisons with finite values.
* The two library functions that compute an irrational square root —
  `scipy.spatial.distance.euclidean` (the DTW step cost) and the square
  root inside the standard deviations used by `pandas.DataFrame.std` /
  `sklearn.StandardScaler` and by `extract_temporal_features` — are kept
  as explicit function parameters (`d` for the step cost, `s` for the
  square root).  They are external library code, not code of this
  repository; theorems that depend on their properties (non-negativity,
  symmetry, `d x x = 0`, `s 0 = 0`) take those properties as hypotheses,
  all of which hold for the real functions.
* A serial text record is modelled after splitting on commas, each field
  being `some q` when the text parses as a number and `none` otherwise.
-/

namespace GestureDetector

/-- A parsed sensor sample: the 6 floats of one serial line. -/
abbrev Sample := List ℚ

/-- A feature matrix: a list of rows of rationals. -/
abbrev Mat := List (List ℚ)

/-- Float values including `np.inf`. -/
abbrev Val := WithTop ℚ

/-! ## Global configuration constants

From the header of `Entrenamiento.py` (lines 17-24); `Testing_Final.py`
uses the same values except `DTW_THRESHOLD = 190.0` and has no
`SIMILARITY_MARGIN`. -/

/-- Constant `TEMPLATE_LENGTH = 80` (`Entrenamiento.py` line 18). -/
def TEMPLATE_LENGTH : ℕ := 80

/-- Constant `DETECTION_WINDOW = 100` (`Entrenamiento.py` line 19). -/
def DETECTION_WINDOW : ℕ := 100

/-- Constant `STEP_SIZE = 5` (`Entrenamiento.py` line 20). -/
def STEP_SIZE : ℕ := 5

/-- Constant `DTW_THRESHOLD = 150.0` (`Entrenamiento.py` line 21). -/
def DTW_THRESHOLD : ℚ := 150

/-- Constant `MIN_ACTIVITY = 0.08` (`Entrenamiento.py` line 22). -/
def MIN_ACTIVITY : ℚ := 0.08

/-- Constant `COOLDOWN_SAMPLES = 40` (`Entrenamiento.py` line 23). -/
def COOLDOWN_SAMPLES : ℕ := 40

/-- Constant `SIMILARITY_MARGIN = 30.0` (`Entrenamiento.py` line 24). -/
def SIMILARITY_MARGIN : ℚ := 30

/-- Constant `DTW_THRESHOLD = 190.0` in `Testing_Final.py` (line 44). -/
def DTW_THRESHOLD_INTEGRATED : ℚ := 190

/-! ## Window buffer

`Entrenamiento.py` lines 317-321:
```
realtime_buffer.append(sensor_values)
if len(realtime_buffer) > DETECTION_WINDOW:
    realtime_buffer = realtime_buffer[-DETECTION_WINDOW:]
```
`Testing_Final.py` lines 554-556 instead `pop(0)` a single element; on
every state reachable from the empty buffer (length ≤ `DETECTION_WINDOW`)
the two are the same function. -/

/-- Append one accepted sample and trim to the last `DETECTION_WINDOW`. -/
def push (buf : Mat) (x : Sample) : Mat :=
  let b := buf ++ [x]
  if DETECTION_WINDOW < b.length then b.drop (b.length - DETECTION_WINDOW) else b

lemma foldl_push_eq (xs : Mat) :
    xs.foldl push [] = xs.drop (xs.length - DETECTION_WINDOW) := by
  have hD : 0 < DETECTION_WINDOW := by norm_num [DETECTION_WINDOW]
  induction xs using List.reverseRecOn with
  | nil => simp
  | append_singleton ys x ih =>
    rw [List.foldl_append, List.foldl_cons, List.foldl_nil, ih]
    unfold push
    have hlen : (ys ++ [x]).length = ys.length + 1 := by simp
    by_cases hy : ys.length ≤ DETECTION_WINDOW
    · have h0 : ys.length - DETECTION_WINDOW = 0 := by omega
      rw [h0, List.drop_zero]
      by_cases hc : DETECTION_WINDOW < (ys ++ [x]).length
      · rw [if_pos hc]
      · rw [if_neg hc]
        have h1 : (ys ++ [x]).length - DETECTION_WINDOW = 0 := by omega
        rw [h1, List.drop_zero]
    · push_neg at hy
      have hdlen : (ys.drop (ys.length - DETECTION_WINDOW)).length = DETECTION_WINDOW := by
        rw [List.length_drop]; omega
      have hc : DETECTION_WINDOW < (ys.drop (ys.length - DETECTION_WINDOW) ++ [x]).length := by
        simp only [List.length_append, List.length_singleton, hdlen]; omega
      rw [if_pos hc]
      have h1 : (ys.drop (ys.length - DETECTION_WINDOW) ++ [x]).length - DETECTION_WINDOW
          = 1 := by
        simp only [List.length_append, List.length_singleton, hdlen]; omega
      rw [h1, List.drop_append_eq_append_drop, List.drop_drop, hdlen]
      have h2 : (1 : ℕ) - DETECTION_WINDOW = 0 := by omega
      rw [h2, List.drop_zero, List.drop_append_eq_append_drop]
      have h3 : (ys ++ [x]).length - DETECTION_WINDOW - ys.length = 0 := by
        simp only [List.length_append, List.length_singleton]; omega
      have h4 : ys.length - DETECTION_WINDOW + 1 = (ys ++ [x]).length - DETECTION_WINDOW := by
        simp only [List.length_append, List.length_singleton]; omega
      rw [h3, List.drop_zero, h4]

/-- C4: for every sequence of accepted samples pushed into the window
buffer (starting from the empty buffer), the buffer length never exceeds
`DETECTION_WINDOW`, and the contents equal the most recent
`min (count_pushed, DETECTION_WINDOW)` samples in arrival order (strict
FIFO eviction from the head). -/
theorem gesture_C4 (xs : Mat) :
    (xs.foldl push []).length ≤ DETECTION_WINDOW
    ∧ xs.foldl push [] = xs.drop (xs.length - DETECTION_WINDOW)
    ∧ (xs.foldl push []).length = min xs.length DETECTION_WINDOW := by
  refine ⟨?_, foldl_push_eq xs, ?_⟩
  · rw [foldl_push_eq, List.length_drop]; omega
  · rw [foldl_push_eq, List.length_drop]; omega

/-! ## Dynamic Time Warping

`Entrenamiento.py` lines 43-64 (`Testing_Final.py` lines 130-143 are
textually identical):
```
n, m = len(seq1), len(seq2)
dtw_matrix = np.full((n + 1, m + 1), np.inf)
dtw_matrix[0, 0] = 0
for i in range(1, n + 1):
    for j in range(1, m + 1):
        cost = euclidean(seq1[i-1], seq2[j-1])
        dtw_matrix[i, j] = cost + min(dtw_matrix[i-1, j],
                                      dtw_matrix[i, j-1],
                                      dtw_matrix[i-1, j-1])
return dtw_matrix[n, m]
```
The matrix is filled row by row, each row left to right; a row only reads
the previous row and the entry just written to its left.  The loop is
embedded as a left fold over the rows of `seq1`, each row computed by a
structural recursion over `seq2` that carries the entry to the left and
the still-relevant suffix of the previous row.  The step cost `d` stands
for `scipy.spatial.distance.euclidean`. -/

/-- One inner `for j` loop: given `a = seq1[i-1]`, the remaining elements
of `seq2` starting at position `j-1`, the entry `left = dtw_matrix[i, j-1]`
and the suffix of the previous row starting at `dtw_matrix[i-1, j-1]`,
produce the entries `dtw_matrix[i, j], ..., dtw_matrix[i, m]`. -/
def dtwRowAux (d : Sample → Sample → ℚ) (a : Sample) :
    List Sample → Val → List Val → List Val
  | [], _, _ => []
  | b :: bs, left, prev =>
    let diag := prev.headD ⊤
    let up := (prev.drop 1).headD ⊤
    let c := ((d a b : ℚ) : Val) + min up (min left diag)
    c :: dtwRowAux d a bs c (prev.drop 1)

/-- Row `i` of the cost matrix from row `i-1`: the border entry
`dtw_matrix[i, 0]` keeps its initial value `np.inf`. -/
def dtwRow (d : Sample → Sample → ℚ) (a : Sample) (B : List Sample)
    (prev : List Val) : List Val :=
  ⊤ :: dtwRowAux d a B ⊤ prev

/-- Function `dtw_distance(seq1, seq2)`: fold the row update over `seq1` starting
from row 0 (`[0, inf, ..., inf]`) and return the last entry
`dtw_matrix[n, m]` of the final row. -/
def dtw_distance (d : Sample → Sample → ℚ) (A B : List Sample) : Val :=
  (A.foldl (fun prev a => dtwRow d a B prev)
    ((0 : Val) :: List.replicate B.length ⊤)).getLastD ⊤

/-- The cost-table recurrence exactly as the specification words it
(§4.5): `cost[0][0] = 0`, every other border cell `+∞`, and
`cost[i][j] = euclidean(A[i-1], B[j-1]) + min(cost[i-1][j], cost[i][j-1],
cost[i-1][j-1])`.  `dtwCell d A B i j` is `cost[i][j]`. -/
def dtwCell (d : Sample → Sample → ℚ) (A B : List Sample) : ℕ → ℕ → Val
  | 0, 0 => 0
  | 0, _ + 1 => ⊤
  | _ + 1, 0 => ⊤
  | i + 1, j + 1 =>
    ((d (A.getD i []) (B.getD j []) : ℚ) : Val) +
      min (dtwCell d A B i (j + 1))
        (min (dtwCell d A B (i + 1) j) (dtwCell d A B i j))
termination_by i j => (i, j)

lemma dtwCell_zero_zero (d : Sample → Sample → ℚ) (A B : List Sample) :
    dtwCell d A B 0 0 = 0 := by
  simp [dtwCell]

lemma dtwCell_zero_succ (d : Sample → Sample → ℚ) (A B : List Sample) (j : ℕ) :
    dtwCell d A B 0 (j + 1) = ⊤ := by
  simp [dtwCell]

lemma dtwCell_succ_zero (d : Sample → Sample → ℚ) (A B : List Sample) (i : ℕ) :
    dtwCell d A B (i + 1) 0 = ⊤ := by
  simp [dtwCell]

lemma dtwCell_succ_succ (d : Sample → Sample → ℚ) (A B : List Sample) (i j : ℕ) :
    dtwCell d A B (i + 1) (j + 1) =
      ((d (A.getD i []) (B.getD j []) : ℚ) : Val) +
        min (dtwCell d A B i (j + 1))
          (min (dtwCell d A B (i + 1) j) (dtwCell d A B i j)) := by
  rw [dtwCell]

/-- Row `i` of the specification cost table, as a list of length `m+1`. -/
def dtwCellRow (d : Sample → Sample → ℚ) (A B : List Sample) (i : ℕ) : List Val :=
  (List.range (B.length + 1)).map (dtwCell d A B i)

lemma dtwCellRow_zero (d : Sample → Sample → ℚ) (A B : List Sample) :
    dtwCellRow d A B 0 = (0 : Val) :: List.replicate B.length ⊤ := by
  unfold dtwCellRow
  rw [List.range_succ_eq_map, List.map_cons, List.map_map, dtwCell_zero_zero]
  congr 1
  have hmem : ∀ c ∈ (List.range B.length).map (dtwCell d A B 0 ∘ Nat.succ),
      c = (⊤ : Val) := by
    intro c hc
    rcases List.mem_map.1 hc with ⟨t, _, rfl⟩
    exact dtwCell_zero_succ d A B t
  rw [List.eq_replicate_of_mem hmem]
  simp

lemma headD_dtwCellRow_drop (d : Sample → Sample → ℚ) (A B : List Sample)
    (i j : ℕ) (hj : j < B.length + 1) :
    ((dtwCellRow d A B i).drop j).headD ⊤ = dtwCell d A B i j := by
  unfold dtwCellRow
  rw [List.headD_eq_head?_getD, List.head?_drop, List.getElem?_map,
    List.getElem?_range hj]
  rfl

lemma dtwRowAux_spec (d : Sample → Sample → ℚ) (A B : List Sample) (i : ℕ) :
    ∀ (bs : List Sample) (j : ℕ), B.drop j = bs →
      dtwRowAux d (A.getD i []) bs (dtwCell d A B (i + 1) j)
          ((dtwCellRow d A B i).drop j)
        = (List.range (B.length - j)).map (fun t => dtwCell d A B (i + 1) (j + t + 1)) := by
  intro bs
  induction bs with
  | nil =>
    intro j hj
    have hle : B.length ≤ j := by
      have := List.drop_eq_nil_iff.1 hj
      omega
    rw [Nat.sub_eq_zero_of_le hle]
    simp [dtwRowAux]
  | cons b bs ih =>
    intro j hj
    have hjlt : j < B.length := by
      by_contra hcon
      push_neg at hcon
      rw [List.drop_eq_nil_of_le hcon] at hj
      exact List.noConfusion hj
    have hb : B.getD j [] = b := by
      have h1 : B[j]? = some b := by
        rw [← List.head?_drop, hj]; rfl
      rw [List.getD_eq_getElem?_getD, h1]; rfl
    have hdrop1 : B.drop (j + 1) = bs := by
      have : (B.drop j).drop 1 = B.drop (j + 1) := by
        rw [List.drop_drop]
      rw [← this, hj]; rfl
    rw [dtwRowAux]
    have hdiag : ((dtwCellRow d A B i).drop j).headD ⊤ = dtwCell d A B i j :=
      headD_dtwCellRow_drop d A B i j (by omega)
    have hdd : ((dtwCellRow d A B i).drop j).drop 1 = (dtwCellRow d A B i).drop (j + 1) := by
      rw [List.drop_drop]
    have hup : (((dtwCellRow d A B i).drop j).drop 1).headD ⊤ = dtwCell d A B i (j + 1) := by
      rw [hdd]
      exact headD_dtwCellRow_drop d A B i (j + 1) (by omega)
    rw [hdiag, hup, hdd]
    have hcell : ((d (A.getD i []) b : ℚ) : Val) +
        min (dtwCell d A B i (j + 1))
          (min (dtwCell d A B (i + 1) j) (dtwCell d A B i j))
        = dtwCell d A B (i + 1) (j + 1) := by
      rw [dtwCell_succ_succ, hb]
    rw [hcell, ih (j + 1) hdrop1]
    have hsub : B.length - j = (B.length - (j + 1)) + 1 := by omega
    rw [hsub, List.range_succ_eq_map, List.map_cons, List.map_map]
    congr 1
    apply List.map_congr_left
    intro t _
    simp only [Function.comp_apply, Nat.succ_eq_add_one]
    congr 1
    omega

lemma dtwRow_spec (d : Sample → Sample → ℚ) (A B : List Sample) (i : ℕ) :
    dtwRow d (A.getD i []) B (dtwCellRow d A B i) = dtwCellRow d A B (i + 1) := by
  unfold dtwRow
  have h0 := dtwRowAux_spec d A B i B 0 rfl
  rw [dtwCell_succ_zero, List.drop_zero] at h0
  rw [h0]
  unfold dtwCellRow
  rw [List.range_succ_eq_map, List.map_cons, List.map_map, dtwCell_succ_zero]
  simp only [Nat.sub_zero, Nat.zero_add]
  congr 1

lemma foldl_dtwRow_spec (d : Sample → Sample → ℚ) (B : List Sample) :
    ∀ (as : List Sample) (A : List Sample) (i : ℕ), A.drop i = as → i ≤ A.length →
      as.foldl (fun prev a => dtwRow d a B prev) (dtwCellRow d A B i)
        = dtwCellRow d A B A.length := by
  intro as
  induction as with
  | nil =>
    intro A i hdrop hle
    have : A.length ≤ i := by
      have := List.drop_eq_nil_iff.1 hdrop
      omega
    have hi : i = A.length := by omega
    rw [List.foldl_nil, hi]
  | cons a as ih =>
    intro A i hdrop hle
    have hilt : i < A.length := by
      by_contra hcon
      push_neg at hcon
      rw [List.drop_eq_nil_of_le hcon] at hdrop
      exact List.noConfusion hdrop
    have ha : A.getD i [] = a := by
      have h1 : A[i]? = some a := by
        rw [← List.head?_drop, hdrop]; rfl
      rw [List.getD_eq_getElem?_getD, h1]; rfl
    have hdrop1 : A.drop (i + 1) = as := by
      have : (A.drop i).drop 1 = A.drop (i + 1) := by rw [List.drop_drop]
      rw [← this, hdrop]; rfl
    rw [List.foldl_cons, ← ha, dtwRow_spec]
    exact ih A (i + 1) hdrop1 (by omega)

/-- The imperative DTW routine computes exactly the recurrence value
`cost[n][m]`. -/
lemma dtw_eq_dtwCell (d : Sample → Sample → ℚ) (A B : List Sample) :
    dtw_distance d A B = dtwCell d A B A.length B.length := by
  unfold dtw_distance
  rw [← dtwCellRow_zero d A B,
    foldl_dtwRow_spec d B A A 0 rfl (Nat.zero_le _)]
  unfold dtwCellRow
  rw [List.range_succ, List.map_append, List.map_singleton, List.getLastD_concat]

/-- C2: for every pair of feature matrices `A` (n rows) and `B` (m rows)
with the same column count, `dtw_distance A B` equals the value defined by
the dynamic program of the specification: an `(n+1)×(m+1)` cost table with
`cost[0][0] = 0`, all other border cells `+∞`,
`cost[i][j] = euclidean(A[i-1], B[j-1]) + min(cost[i-1][j], cost[i][j-1],
cost[i-1][j-1])`, and result `cost[n][m]`. -/
theorem gesture_C2 (d : Sample → Sample → ℚ) (A B : List Sample) (k : ℕ)
    (_hA : ∀ r ∈ A, r.length = k) (_hB : ∀ r ∈ B, r.length = k) :
    dtw_distance d A B = dtwCell d A B A.length B.length :=
  dtw_eq_dtwCell d A B

/-- A concrete computable stand-in for the euclidean step cost, used by
the witnesses. -/
def dWit : Sample → Sample → ℚ := fun x y => |x.headD 0 - y.headD 0|

/-- Witness for C2 at a concrete input. -/
theorem gesture_C2_witness :
    dtw_distance dWit [[(1 : ℚ)]] [[(3 : ℚ)]] = dtwCell dWit [[(1 : ℚ)]] [[(3 : ℚ)]] 1 1 :=
  gesture_C2 dWit [[(1 : ℚ)]] [[(3 : ℚ)]] 1 (by decide) (by decide)

/-! ## Algebraic properties of the DTW routine (C7, C10)

The step cost `d` stands for `scipy.spatial.distance.euclidean`, which is
non-negative, symmetric and zero on equal arguments; the theorems take
exactly those three facts as hypotheses. -/

lemma dtwCell_nonneg (d : Sample → Sample → ℚ) (hd : ∀ x y, 0 ≤ d x y)
    (A B : List Sample) : ∀ i j, (0 : Val) ≤ dtwCell d A B i j := by
  intro i
  induction i with
  | zero =>
    intro j
    cases j with
    | zero => rw [dtwCell_zero_zero]
    | succ j => rw [dtwCell_zero_succ]; exact le_top
  | succ i ih =>
    intro j
    induction j with
    | zero => rw [dtwCell_succ_zero]; exact le_top
    | succ j ihj =>
      rw [dtwCell_succ_succ]
      have hc : (0 : Val) ≤ ((d (A.getD i []) (B.getD j []) : ℚ) : Val) := by
        exact_mod_cast hd (A.getD i []) (B.getD j [])
      exact add_nonneg hc (le_min (ih (j + 1)) (le_min ihj (ih j)))

lemma dtwCell_self_diag (d : Sample → Sample → ℚ) (hd0 : ∀ x, d x x = 0)
    (hd : ∀ x y, 0 ≤ d x y) (A : List Sample) :
    ∀ i, dtwCell d A A i i = 0 := by
  intro i
  induction i with
  | zero => exact dtwCell_zero_zero d A A
  | succ i ih =>
    rw [dtwCell_succ_succ, hd0]
    have h1 : min (dtwCell d A A (i + 1) i) (dtwCell d A A i i) = 0 := by
      rw [ih]
      exact min_eq_right (dtwCell_nonneg d hd A A (i + 1) i)
    have h2 : min (dtwCell d A A i (i + 1))
        (min (dtwCell d A A (i + 1) i) (dtwCell d A A i i)) = 0 := by
      rw [h1]
      exact min_eq_right (dtwCell_nonneg d hd A A i (i + 1))
    rw [h2]
    simp

lemma dtwCell_symm (d : Sample → Sample → ℚ) (hds : ∀ x y, d x y = d y x)
    (A B : List Sample) : ∀ i j, dtwCell d A B i j = dtwCell d B A j i := by
  intro i
  induction i with
  | zero =>
    intro j
    cases j with
    | zero => rw [dtwCell_zero_zero, dtwCell_zero_zero]
    | succ j => rw [dtwCell_zero_succ, dtwCell_succ_zero]
  | succ i ih =>
    intro j
    induction j with
    | zero => rw [dtwCell_succ_zero, dtwCell_zero_succ]
    | succ j ihj =>
      rw [dtwCell_succ_succ, dtwCell_succ_succ, hds, ihj, ih (j + 1), ih j]
      rw [min_left_comm]

/-- C7: `dtw_distance(A, A) = 0` for every non-empty feature matrix `A`,
and `dtw_distance(A, B) = dtw_distance(B, A)` for every pair of matrices
with the same column count; the step cost is non-negative, symmetric and
zero on equal rows, as the euclidean distance is. -/
theorem gesture_C7 (d : Sample → Sample → ℚ) (hd0 : ∀ x, d x x = 0)
    (hdnn : ∀ x y, 0 ≤ d x y) (hds : ∀ x y, d x y = d y x) :
    (∀ A : List Sample, A ≠ [] → dtw_distance d A A = 0)
    ∧ ∀ (A B : List Sample) (k : ℕ), (∀ r ∈ A, r.length = k) →
        (∀ r ∈ B, r.length = k) → dtw_distance d A B = dtw_distance d B A := by
  constructor
  · intro A _
    rw [dtw_eq_dtwCell]
    exact dtwCell_self_diag d hd0 hdnn A A.length
  · intro A B _ _ _
    rw [dtw_eq_dtwCell, dtw_eq_dtwCell]
    exact dtwCell_symm d hds A B A.length B.length

/-- Witness for C7: the zero step cost satisfies all three hypotheses. -/
theorem gesture_C7_witness :
    dtw_distance (fun _ _ => (0 : ℚ)) [[(1 : ℚ)]] [[(1 : ℚ)]] = 0
    ∧ dtw_distance (fun _ _ => (0 : ℚ)) [[(1 : ℚ)]] [[(2 : ℚ)], [(3 : ℚ)]]
      = dtw_distance (fun _ _ => (0 : ℚ)) [[(2 : ℚ)], [(3 : ℚ)]] [[(1 : ℚ)]] := by
  have h := gesture_C7 (fun _ _ => (0 : ℚ)) (fun _ => rfl) (fun _ _ => le_refl 0)
    (fun _ _ => rfl)
  exact ⟨h.1 [[(1 : ℚ)]] (by decide),
    h.2 [[(1 : ℚ)]] [[(2 : ℚ)], [(3 : ℚ)]] 1 (by decide) (by decide)⟩

/-- C10: the DTW dissimilarity is never negative: for every pair of
matrices with the same column count and at least one row each,
`0 ≤ dtw_distance(A, B)`, the step cost being non-negative as the
euclidean distance is. -/
theorem gesture_C10 (d : Sample → Sample → ℚ) (hdnn : ∀ x y, 0 ≤ d x y)
    (A B : List Sample) (k : ℕ) (_hA : ∀ r ∈ A, r.length = k)
    (_hB : ∀ r ∈ B, r.length = k) (_hAne : A ≠ []) (_hBne : B ≠ []) :
    (0 : Val) ≤ dtw_distance d A B := by
  rw [dtw_eq_dtwCell]
  exact dtwCell_nonneg d hdnn A B A.length B.length

/-- Witness for C10 at a concrete input. -/
theorem gesture_C10_witness :
    (0 : Val) ≤ dtw_distance dWit [[(1 : ℚ)]] [[(5 : ℚ)]] :=
  gesture_C10 dWit (fun x y => abs_nonneg _) [[(1 : ℚ)]] [[(5 : ℚ)]] 1
    (by decide) (by decide) (by decide) (by decide)

/-! ## Column statistics and the normalizer

`normalize_sequence` (`Entrenamiento.py` lines 34-40, `Testing_Final.py`
lines 126-128) is `StandardScaler().fit_transform(sequence)`.
`sklearn.preprocessing.StandardScaler` standardizes each column as
`z = (x - mean) / scale` where `scale` is the population standard
deviation (`ddof = 0`) of that column of the given matrix alone, except
that a zero standard deviation is replaced by `1`
(`sklearn.preprocessing._data._handle_zeros_in_scale`).  A standard
deviation is zero exactly when the variance is, so the zero test is put
on the variance and the abstract square root `s` is applied otherwise. -/

/-- Column `j` of a row-major matrix. -/
def column (M : Mat) (j : ℕ) : List ℚ := M.map (fun r => r.getD j 0)

/-- Arithmetic mean of a list (0 on the empty list, as `0/0 = 0` in `ℚ`). -/
def mean (xs : List ℚ) : ℚ := xs.sum / xs.length

/-- Population variance (`ddof = 0`), as used by `StandardScaler`. -/
def varPop (xs : List ℚ) : ℚ :=
  ((xs.map (fun x => (x - mean xs) ^ 2)).sum) / xs.length

/-- Sample variance (`ddof = 1`), as used by `pandas.DataFrame.std`. -/
def varSamp (xs : List ℚ) : ℚ :=
  ((xs.map (fun x => (x - mean xs) ^ 2)).sum) / ((xs.length : ℚ) - 1)

/-- The per-column scale used by `StandardScaler`: the standard deviation
`s (varPop xs)`, with zero replaced by 1. -/
def scaleOf (s : ℚ → ℚ) (xs : List ℚ) : ℚ :=
  if varPop xs = 0 then 1 else s (varPop xs)

/-- Positional map `f 0 x₀ :: f 1 x₁ :: ...` — positional map used to address columns of
a row. -/
def mapWithIndex (f : ℕ → ℚ → ℚ) : ℕ → List ℚ → List ℚ
  | _, [] => []
  | j, x :: xs => f j x :: mapWithIndex f (j + 1) xs

/-- Function `normalize_sequence(sequence) = StandardScaler().fit_transform(sequence)`:
each entry of column `j` becomes `(x - mean_j) / scale_j`, both statistics
computed from this matrix alone. -/
def normalize_sequence (s : ℚ → ℚ) (M : Mat) : Mat :=
  M.map (fun r =>
    mapWithIndex (fun j x => (x - mean (column M j)) / scaleOf s (column M j)) 0 r)

lemma mapWithIndex_length (f : ℕ → ℚ → ℚ) :
    ∀ (j : ℕ) (xs : List ℚ), (mapWithIndex f j xs).length = xs.length := by
  intro j xs
  induction xs generalizing j with
  | nil => rfl
  | cons x xs ih => simp [mapWithIndex, ih]

lemma mapWithIndex_getD (f : ℕ → ℚ → ℚ) :
    ∀ (xs : List ℚ) (j t : ℕ), t < xs.length →
      (mapWithIndex f j xs).getD t 0 = f (j + t) (xs.getD t 0) := by
  intro xs
  induction xs with
  | nil => intro j t ht; simp at ht
  | cons x xs ih =>
    intro j t ht
    cases t with
    | zero => simp [mapWithIndex]
    | succ t =>
      have ht' : t < xs.length := by simpa using ht
      have := ih (j + 1) t ht'
      simp only [mapWithIndex, List.getD_cons_succ, this]
      congr 1
      omega

lemma getD_mem_of_lt {α : Type} (l : List α) (i : ℕ) (dflt : α)
    (h : i < l.length) : l.getD i dflt ∈ l := by
  rw [List.getD_eq_getElem?_getD, List.getElem?_eq_getElem h, Option.getD_some]
  exact List.getElem_mem h

lemma sum_sq_nonneg (c : ℚ) (xs : List ℚ) :
    0 ≤ (xs.map (fun x => (x - c) ^ 2)).sum := by
  induction xs with
  | nil => simp
  | cons x xs ih =>
    rw [List.map_cons, List.sum_cons]
    exact add_nonneg (sq_nonneg _) ih

lemma sum_sq_eq_zero (c : ℚ) (xs : List ℚ)
    (h : (xs.map (fun x => (x - c) ^ 2)).sum = 0) : ∀ x ∈ xs, x = c := by
  induction xs with
  | nil => intro x hx; simp at hx
  | cons x xs ih =>
    rw [List.map_cons, List.sum_cons] at h
    have hx2 : (0 : ℚ) ≤ (x - c) ^ 2 := sq_nonneg _
    have hrest : (0 : ℚ) ≤ (xs.map (fun y => (y - c) ^ 2)).sum := sum_sq_nonneg c xs
    have hx0 : (x - c) ^ 2 = 0 := by linarith
    have hxc : x = c := by
      have := pow_eq_zero_iff (n := 2) (by norm_num) |>.1 hx0
      linarith [sub_eq_zero.1 this]
    intro y hy
    rcases List.mem_cons.1 hy with rfl | hy'
    · exact hxc
    · exact ih (by linarith) y hy'

lemma varPop_eq_zero_const (xs : List ℚ) (h : varPop xs = 0) :
    ∀ x ∈ xs, x = mean xs := by
  cases hxs : xs with
  | nil => intro x hx; simp at hx
  | cons a l =>
    rw [← hxs]
    unfold varPop at h
    have hlen : ((xs.length : ℚ)) ≠ 0 := by
      rw [hxs]; simp
      exact Nat.cast_add_one_ne_zero l.length
    have hsum := (div_eq_zero_iff.1 h).resolve_right hlen
    exact sum_sq_eq_zero _ _ hsum

/-- C8: the normalizer preserves the shape of its input, each entry of
column `j` becomes `(x - mean_j) / scale_j` with both statistics computed
from the input matrix alone, and a column of zero variance is mapped to
the all-zero column (the `StandardScaler` fallback) rather than to a
division-by-zero value. -/
theorem gesture_C8 (s : ℚ → ℚ) (M : Mat) (k : ℕ)
    (hrows : ∀ r ∈ M, r.length = k) :
    (normalize_sequence s M).length = M.length
    ∧ (∀ r ∈ normalize_sequence s M, r.length = k)
    ∧ (∀ i j, i < M.length → j < k →
        ((normalize_sequence s M).getD i []).getD j 0
          = ((M.getD i []).getD j 0 - mean (column M j)) / scaleOf s (column M j))
    ∧ ∀ j, j < k → varPop (column M j) = 0 →
        ∀ y ∈ column (normalize_sequence s M) j, y = 0 := by
  have hlen : (normalize_sequence s M).length = M.length := by
    unfold normalize_sequence; simp
  have hget : ∀ i j, i < M.length → j < k →
      ((normalize_sequence s M).getD i []).getD j 0
        = ((M.getD i []).getD j 0 - mean (column M j)) / scaleOf s (column M j) := by
    intro i j hi hj
    unfold normalize_sequence
    have hmem : M.getD i [] ∈ M := getD_mem_of_lt M i [] hi
    have hrl : (M.getD i []).length = k := hrows _ hmem
    have h1 : (M.map (fun r =>
        mapWithIndex (fun j x => (x - mean (column M j)) / scaleOf s (column M j)) 0 r)).getD i []
        = mapWithIndex (fun j x => (x - mean (column M j)) / scaleOf s (column M j)) 0
            (M.getD i []) := by
      rw [List.getD_eq_getElem?_getD, List.getElem?_map]
      rw [List.getElem?_eq_getElem hi]
      simp [List.getD_eq_getElem?_getD, List.getElem?_eq_getElem hi]
    rw [h1, mapWithIndex_getD _ _ 0 j (by omega)]
    simp
  refine ⟨hlen, ?_, hget, ?_⟩
  · intro r hr
    unfold normalize_sequence at hr
    rcases List.mem_map.1 hr with ⟨r0, hr0, rfl⟩
    rw [mapWithIndex_length]
    exact hrows r0 hr0
  · intro j hj hvar y hy
    unfold column at hy
    rcases List.mem_map.1 hy with ⟨r, hr, rfl⟩
    rcases List.mem_iff_getElem.1 hr with ⟨i, hilt, hri⟩
    have hi : i < M.length := by
      rw [← hlen]; exact hilt
    have hrd : (normalize_sequence s M).getD i [] = r := by
      rw [List.getD_eq_getElem?_getD, List.getElem?_eq_getElem hilt, hri]
      rfl
    rw [← hrd, hget i j hi hj]
    have hmemcol : (M.getD i []).getD j 0 ∈ column M j := by
      unfold column
      exact List.mem_map_of_mem _ (getD_mem_of_lt M i [] hi)
    have := varPop_eq_zero_const (column M j) hvar _ hmemcol
    rw [this, sub_self, zero_div]

/-- Witness for C8: a 2×2 matrix whose first column is constant. -/
theorem gesture_C8_witness :
    (normalize_sequence id [[(1 : ℚ), 2], [(1 : ℚ), 4]]).length = 2
    ∧ ∀ y ∈ column (normalize_sequence id [[(1 : ℚ), 2], [(1 : ℚ), 4]]) 0, y = 0 := by
  have h := gesture_C8 id [[(1 : ℚ), 2], [(1 : ℚ), 4]] 2 (by
    intro r hr
    rcases List.mem_cons.1 hr with rfl | hr'
    · rfl
    · rcases List.mem_cons.1 hr' with rfl | hr''
      · rfl
      · simp at hr'')
  refine ⟨h.1, h.2.2.2 0 (by norm_num) ?_⟩
  norm_num [varPop, column, mean]

/-! ## The detection loop

`run_detector` (`Entrenamiento.py` lines 306-412) and
`run_integrated_detector` (`Testing_Final.py` lines 543-593) share the
identical per-line control skeleton:
```
parts = line.split(',')
if len(parts) == NUM_SENSOR_VALUES:
    try:
        sensor_values = [float(p) for p in parts]   # ValueError -> skip
        realtime_buffer.append(sensor_values)        # + window trim
        if cooldown_counter > 0:
            cooldown_counter -= 1
            continue
        evaluation_counter += 1
        if evaluation_counter >= STEP_SIZE and len(realtime_buffer) >= template_length:
            evaluation_counter = 0
            <activity check; on low activity: continue>
            <evaluate the window; on detection: cooldown = COOLDOWN_SAMPLES,
             realtime_buffer = []>
    except ValueError:
        continue
```
Only the evaluation of an (active) window differs between the two files,
so the skeleton is embedded once (`stepLoop`), parametric in the window
evaluator `evalF`, and instantiated twice. -/

/-- A split serial line: one field per comma-separated chunk, `some q`
when `float(p)` succeeds, `none` when it raises `ValueError`. -/
abbrev RecT := List (Option ℚ)

/-- Conversion `[float(p) for p in parts]`: all fields must parse. -/
def parseFields : RecT → Option (List ℚ)
  | [] => some []
  | none :: _ => none
  | some q :: rest => (parseFields rest).map (q :: ·)

/-- The guard `len(parts) == NUM_SENSOR_VALUES` followed by the float
conversion. -/
def parseSample (rec : RecT) : Option Sample :=
  if rec.length = 6 then parseFields rec else none

/-- A successful detection, with the fields the source prints/dispatches:
gesture name, best DTW distance, and the similarity/confidence score. -/
structure DetectionEvent where
  gesture : String
  distance : ℚ
  confidence : ℚ
deriving DecidableEq

/-- The detector's mutable state: `realtime_buffer`, `cooldown_counter`
and the local `evaluation_counter`. -/
structure DState where
  buffer : Mat
  cooldown : ℕ
  evalCounter : ℕ
deriving DecidableEq

/-- Activity `recent_data.std().mean()`: the per-column (`ddof = 1`, the pandas
default) standard deviation of the 6 raw axes of a window, averaged over
the 6 axes.  `s` is the square root. -/
def activityOf (s : ℚ → ℚ) (w : Mat) : ℚ :=
  (((List.range 6).map (fun j => s (varSamp (column w j)))).sum) / 6

/-- Function `extract_temporal_features` (`Entrenamiento.py` lines 126-144): the 6
raw axes plus the gyro- and accel-magnitude columns
`sqrt(x² + y² + z²)`. -/
def extract_temporal_features (s : ℚ → ℚ) (w : Mat) : Mat :=
  w.map (fun r =>
    let gx := r.getD 0 0
    let gy := r.getD 1 0
    let gz := r.getD 2 0
    let ax := r.getD 3 0
    let ay := r.getD 4 0
    let az := r.getD 5 0
    [gx, gy, gz, ax, ay, az,
      s (gx ^ 2 + gy ^ 2 + gz ^ 2), s (ax ^ 2 + ay ^ 2 + az ^ 2)])

/-- Per-gesture distance: `min_distance` over the gesture's template
variants, starting from `float('inf')` (`Entrenamiento.py` lines
354-363). -/
def minDistance (d : Sample → Sample → ℚ) (q : Mat) (ts : List Mat) : Val :=
  ts.foldl (fun acc t => if dtw_distance d q t < acc then dtw_distance d q t else acc) ⊤

/-- Map `gesture_distances`: the per-gesture minima, in registration order. -/
def gestureDistances (d : Sample → Sample → ℚ) (q : Mat)
    (gs : List (String × List Mat)) : List (String × Val) :=
  gs.map (fun p => (p.1, minDistance d q p.2))

/-- Selection `best_gesture = min(gesture_distances, key=gesture_distances.get)`:
the first entry attaining the minimal distance. -/
def bestOf (ds : List (String × Val)) : String × Val :=
  match ds with
  | [] => ("", ⊤)
  | p :: rest => rest.foldl (fun acc q => if q.2 < acc.2 then q else acc) p

/-- Insertion into a sorted list (ascending). -/
def insertSorted (x : Val) : List Val → List Val
  | [] => [x]
  | y :: ys => if x ≤ y then x :: y :: ys else y :: insertSorted x ys

/-- Sorting `sorted(values)`: any comparison sort computes the unique ascending
reordering, here insertion sort. -/
def sortVals (l : List Val) : List Val := l.foldr insertSorted []

/-- Value `second_best_distance = sorted(gesture_distances.values())[1] if
len(gesture_distances) > 1 else float('inf')` (`Entrenamiento.py` line
372). -/
def secondBest (ds : List (String × Val)) : Val :=
  if 1 < ds.length then (sortVals (ds.map Prod.snd)).getD 1 ⊤ else ⊤

/-- Float subtraction `second_best - best` with a possibly infinite
`second_best`: `inf - b = inf`. -/
def subT : Val → ℚ → Val
  | ⊤, _ => ⊤
  | (a : ℚ), b => ((a - b : ℚ) : Val)

/-- Score `similarity_score = max(0, 100 - (best_distance / THRESHOLD * 100))`. -/
def similarityScore (b T : ℚ) : ℚ := max 0 (100 - b / T * 100)

/-- Window evaluation of `run_detector` (`Entrenamiento.py` lines
345-409): features, normalization, per-gesture DTW minima, threshold test
`best_distance <= DTW_THRESHOLD`, and the distinctiveness test
`(second_best_distance - best_distance) > SIMILARITY_MARGIN or
len(all_gestures) == 1`.  Returns the emitted event, `none` on the
"no match" and "ambiguous" outcomes. -/
def evalEnt (d : Sample → Sample → ℚ) (s : ℚ → ℚ)
    (gs : List (String × List Mat)) (w : Mat) : Option DetectionEvent :=
  let q := normalize_sequence s (extract_temporal_features s w)
  let ds := gestureDistances d q gs
  let best := bestOf ds
  if best.2 ≤ ((DTW_THRESHOLD : ℚ) : Val) then
    let b := best.2.untop' 0
    if ((SIMILARITY_MARGIN : ℚ) : Val) < subT (secondBest ds) b ∨ gs.length = 1 then
      some ⟨best.1, b, similarityScore b DTW_THRESHOLD⟩
    else none
  else none

/-- The global minimum of `run_integrated_detector` (`Testing_Final.py`
lines 572-579): one strict-minimum scan over all (gesture, template)
pairs. -/
def bestPair (d : Sample → Sample → ℚ) (q : Mat)
    (gs : List (String × List Mat)) : String × Val :=
  gs.foldl (fun acc p =>
    p.2.foldl (fun acc2 t =>
      if dtw_distance d q t < acc2.2 then (p.1, dtw_distance d q t) else acc2) acc)
    ("", ⊤)

/-- Window evaluation of `run_integrated_detector` (`Testing_Final.py`
lines 570-590): features, normalization, global minimum, and the single
test `min_dist <= DTW_THRESHOLD` — there is no similarity-margin /
distinctiveness check in this file. -/
def evalInt (d : Sample → Sample → ℚ) (s : ℚ → ℚ)
    (gs : List (String × List Mat)) (w : Mat) : Option DetectionEvent :=
  let q := normalize_sequence s (extract_temporal_features s w)
  let best := bestPair d q gs
  if best.2 ≤ ((DTW_THRESHOLD_INTEGRATED : ℚ) : Val) then
    let b := best.2.untop' 0
    some ⟨best.1, b, similarityScore b DTW_THRESHOLD_INTEGRATED⟩
  else none

/-- One iteration of the shared detection-loop skeleton on one serial
line.  `L` is `template_length` (read from the loaded gesture models),
`evalF` the per-file window evaluation. -/
def stepLoop (s : ℚ → ℚ) (L : ℕ) (evalF : Mat → Option DetectionEvent)
    (st : DState) (rec : RecT) : DState × Option DetectionEvent :=
  match parseSample rec with
  | none => (st, none)
  | some v =>
    let buf := push st.buffer v
    if 0 < st.cooldown then
      (⟨buf, st.cooldown - 1, st.evalCounter⟩, none)
    else
      let ec := st.evalCounter + 1
      if STEP_SIZE ≤ ec ∧ L ≤ buf.length then
        let w := buf.drop (buf.length - L)
        if activityOf s w < MIN_ACTIVITY then
          (⟨buf, st.cooldown, 0⟩, none)
        else
          match evalF w with
          | some e => (⟨[], COOLDOWN_SAMPLES, 0⟩, some e)
          | none => (⟨buf, st.cooldown, 0⟩, none)
      else (⟨buf, st.cooldown, ec⟩, none)

/-- Step of `run_detector` on one line. -/
def stepDetector (d : Sample → Sample → ℚ) (s : ℚ → ℚ)
    (gs : List (String × List Mat)) (L : ℕ) :
    DState → RecT → DState × Option DetectionEvent :=
  stepLoop s L (evalEnt d s gs)

/-- Step of `run_integrated_detector` on one line. -/
def stepIntegrated (d : Sample → Sample → ℚ) (s : ℚ → ℚ)
    (gs : List (String × List Mat)) (L : ℕ) :
    DState → RecT → DState × Option DetectionEvent :=
  stepLoop s L (evalInt d s gs)

/-- Run the loop over a list of serial lines, collecting emitted events. -/
def runLoop (s : ℚ → ℚ) (L : ℕ) (evalF : Mat → Option DetectionEvent) :
    DState → List RecT → DState × List DetectionEvent
  | st, [] => (st, [])
  | st, r :: rs =>
    let p := stepLoop s L evalF st r
    let q := runLoop s L evalF p.1 rs
    (q.1, p.2.toList ++ q.2)

/-- Predicate for an evaluation being triggered on this sample: the sample is accepted,
no cooldown is active, and both guards
`evaluation_counter >= STEP_SIZE and len(realtime_buffer) >=
template_length` hold after the buffer update. -/
def evalTriggered (L : ℕ) (st : DState) (rec : RecT) : Bool :=
  match parseSample rec with
  | none => false
  | some v =>
    decide (st.cooldown = 0) && decide (STEP_SIZE ≤ st.evalCounter + 1)
      && decide (L ≤ (push st.buffer v).length)

/-! ## Error handling (C9) -/

lemma parseFields_eq_none (rec : RecT) (h : ∃ f ∈ rec, f = none) :
    parseFields rec = none := by
  induction rec with
  | nil => rcases h with ⟨f, hf, _⟩; simp at hf
  | cons a rest ih =>
    rcases h with ⟨f, hf, rfl⟩
    rcases List.mem_cons.1 hf with rfl | hm
    · rfl
    · cases a with
      | none => rfl
      | some q => simp only [parseFields, ih ⟨none, hm, rfl⟩, Option.map_none']

/-- C9: a serial record that does not have exactly 6 comma-separated
fields, or whose fields are not all numeric, is discarded: it never
reaches the window buffer, the detector state is unchanged, no event is
emitted, and the step is total (the loop does not stop).  Stated for the
shared loop skeleton, hence for both `run_detector` and
`run_integrated_detector`. -/
theorem gesture_C9 (s : ℚ → ℚ) (L : ℕ) (evalF : Mat → Option DetectionEvent)
    (st : DState) (rec : RecT)
    (h : rec.length ≠ 6 ∨ ∃ f ∈ rec, f = none) :
    stepLoop s L evalF st rec = (st, none) := by
  have hp : parseSample rec = none := by
    unfold parseSample
    rcases h with h | h
    · rw [if_neg h]
    · split
      · exact parseFields_eq_none rec h
      · rfl
  unfold stepLoop
  rw [hp]

/-- Concrete square root stand-in for witnesses. -/
def sWit : ℚ → ℚ := id

/-- Window evaluator that always reports a detection; used by witnesses to
show a step did not consult the evaluator. -/
def evalFEmit : Mat → Option DetectionEvent := fun _ => some ⟨"x", 0, 0⟩

/-- A row of six zeros. -/
def z6 : Sample := [0, 0, 0, 0, 0, 0]

/-- A row of six ones. -/
def o6 : Sample := [1, 1, 1, 1, 1, 1]

/-- Witness for C9: a one-field record and a record with a non-numeric
field leave the state untouched. -/
theorem gesture_C9_witness :
    stepLoop sWit 80 evalFEmit ⟨[], 3, 1⟩ [some 1] = (⟨[], 3, 1⟩, none)
    ∧ stepLoop sWit 80 evalFEmit ⟨[], 3, 1⟩
        [some 1, none, some 1, some 1, some 1, some 1] = (⟨[], 3, 1⟩, none) :=
  ⟨gesture_C9 sWit 80 evalFEmit ⟨[], 3, 1⟩ [some 1] (Or.inl (by decide)),
    gesture_C9 sWit 80 evalFEmit ⟨[], 3, 1⟩ _
      (Or.inr ⟨none, by decide, rfl⟩)⟩

/-! ## Activity gate (C6) -/

/-- C6: on an evaluation tick (accepted sample, no cooldown, both
evaluation guards true) whose window activity — the mean over the 6 raw
axes of the per-axis standard deviation of the most recent
`template_length` samples — is below `MIN_ACTIVITY`, the evaluation is
skipped entirely: no event is emitted, the cooldown counter is unchanged,
and the buffer keeps accumulating (it equals the pushed buffer).  Stated
for the shared loop skeleton with an arbitrary window evaluator, hence
for both detectors, and independently of feature extraction and DTW. -/
theorem gesture_C6 (s : ℚ → ℚ) (L : ℕ) (evalF : Mat → Option DetectionEvent)
    (st : DState) (rec : RecT) (v : Sample)
    (hv : parseSample rec = some v)
    (hcd : st.cooldown = 0)
    (hec : STEP_SIZE ≤ st.evalCounter + 1)
    (hlen : L ≤ (push st.buffer v).length)
    (hact : activityOf s ((push st.buffer v).drop ((push st.buffer v).length - L))
        < MIN_ACTIVITY) :
    stepLoop s L evalF st rec = (⟨push st.buffer v, st.cooldown, 0⟩, none) := by
  unfold stepLoop
  rw [hv]
  simp only
  rw [if_neg (by omega : ¬ 0 < st.cooldown), if_pos ⟨hec, hlen⟩, if_pos hact]

/-- Witness for C6: a still two-sample window (activity 0) with an
evaluator that would otherwise report a detection. -/
theorem gesture_C6_witness :
    stepLoop sWit 2 evalFEmit ⟨[z6], 0, 4⟩
        [some 0, some 0, some 0, some 0, some 0, some 0]
      = (⟨[z6, z6], 0, 0⟩, none) := by
  have h := gesture_C6 sWit 2 evalFEmit ⟨[z6], 0, 4⟩
    [some 0, some 0, some 0, some 0, some 0, some 0] z6
    (by rfl) rfl (by norm_num [STEP_SIZE])
    (by norm_num [push, DETECTION_WINDOW, z6])
    (by norm_num [push, DETECTION_WINDOW, z6, activityOf, varSamp, column, mean,
      MIN_ACTIVITY, sWit, List.range_succ])
  rw [h]
  norm_num [push, DETECTION_WINDOW, z6]

/-! ## Post-detection reset and confidence (C5) -/

/-- If a step emits an event, the loop cleared the buffer, set the
cooldown, and the event came from the window evaluator. -/
lemma stepLoop_emit (s : ℚ → ℚ) (L : ℕ) (evalF : Mat → Option DetectionEvent)
    (st : DState) (rec : RecT) (st' : DState) (ev : DetectionEvent)
    (h : stepLoop s L evalF st rec = (st', some ev)) :
    st' = ⟨[], COOLDOWN_SAMPLES, 0⟩ ∧
    ∃ v, parseSample rec = some v ∧
      evalF ((push st.buffer v).drop ((push st.buffer v).length - L)) = some ev := by
  unfold stepLoop at h
  split at h
  · exact absurd h (by simp)
  case _ v heq =>
    split at h
    · exact absurd h (by simp)
    · simp only [] at h
      split at h
      · split at h
        · exact absurd h (by simp)
        · split at h
          case _ e he =>
            rw [Prod.mk.injEq, Option.some.injEq] at h
            exact ⟨h.1.symm, v, heq, by rw [he, h.2]⟩
          · exact absurd h (by simp)
      · exact absurd h (by simp)

/-- An event emitted by `run_detector`'s window evaluation carries
`confidence = similarityScore distance DTW_THRESHOLD`. -/
lemma evalEnt_conf (d : Sample → Sample → ℚ) (s : ℚ → ℚ)
    (gs : List (String × List Mat)) (w : Mat) (ev : DetectionEvent)
    (h : evalEnt d s gs w = some ev) :
    ev.confidence = similarityScore ev.distance DTW_THRESHOLD := by
  unfold evalEnt at h
  simp only [] at h
  split at h
  · split at h
    · rw [Option.some.injEq] at h
      rw [← h]
    · exact absurd h (by simp)
  · exact absurd h (by simp)

/-- An event emitted by `run_integrated_detector`'s window evaluation
carries `confidence = similarityScore distance DTW_THRESHOLD_INTEGRATED`. -/
lemma evalInt_conf (d : Sample → Sample → ℚ) (s : ℚ → ℚ)
    (gs : List (String × List Mat)) (w : Mat) (ev : DetectionEvent)
    (h : evalInt d s gs w = some ev) :
    ev.confidence = similarityScore ev.distance DTW_THRESHOLD_INTEGRATED := by
  unfold evalInt at h
  simp only [] at h
  split at h
  · rw [Option.some.injEq] at h
    rw [← h]
  · exact absurd h (by simp)

lemma similarityScore_eq (b T : ℚ) :
    similarityScore b T = max 0 (100 * (1 - b / T)) := by
  unfold similarityScore
  congr 1
  ring

/-- C5: immediately after a successful detection (an event is emitted by
a step of either detector), the buffer is empty, the cooldown counter
equals `COOLDOWN_SAMPLES`, and the emitted confidence equals
`max(0, 100·(1 − best_distance / DTW_THRESHOLD))` for the respective
file's threshold. -/
theorem gesture_C5 (d : Sample → Sample → ℚ) (s : ℚ → ℚ)
    (gs : List (String × List Mat)) (L : ℕ) (st : DState) (rec : RecT)
    (st' : DState) (ev : DetectionEvent) :
    (stepDetector d s gs L st rec = (st', some ev) →
      st'.buffer = [] ∧ st'.cooldown = COOLDOWN_SAMPLES ∧
      ev.confidence = max 0 (100 * (1 - ev.distance / DTW_THRESHOLD)))
    ∧ (stepIntegrated d s gs L st rec = (st', some ev) →
      st'.buffer = [] ∧ st'.cooldown = COOLDOWN_SAMPLES ∧
      ev.confidence = max 0 (100 * (1 - ev.distance / DTW_THRESHOLD_INTEGRATED))) := by
  constructor
  · intro h
    obtain ⟨hst, v, _, hev⟩ := stepLoop_emit s L (evalEnt d s gs) st rec st' ev h
    subst hst
    exact ⟨rfl, rfl, by rw [evalEnt_conf d s gs _ ev hev, similarityScore_eq]⟩
  · intro h
    obtain ⟨hst, v, _, hev⟩ := stepLoop_emit s L (evalInt d s gs) st rec st' ev h
    subst hst
    exact ⟨rfl, rfl, by rw [evalInt_conf d s gs _ ev hev, similarityScore_eq]⟩

/-- Zero step cost, a valid (non-negative, symmetric, reflexive-zero)
stand-in for the euclidean cost in witnesses. -/
def dZero : Sample → Sample → ℚ := fun _ _ => 0

/-- A one-row, 8-column template. -/
def tZ8 : Mat := [[0, 0, 0, 0, 0, 0, 0, 0]]

/-- A single registered gesture. -/
def gsOne : List (String × List Mat) := [("a", [tZ8])]

/-- A valid serial record of six ones. -/
def recOnes : RecT := [some 1, some 1, some 1, some 1, some 1, some 1]

/-- A state one accepted sample away from an active evaluation:
one buffered still sample, no cooldown, `evaluation_counter = 4`. -/
def stAct : DState := ⟨[z6], 0, 4⟩

lemma stepDetector_wit_eval :
    stepDetector dZero sWit gsOne 2 stAct recOnes
      = (⟨[], COOLDOWN_SAMPLES, 0⟩, some ⟨"a", 0, 100⟩) := by
  norm_num [stepDetector, stepLoop, parseSample, parseFields, push, DETECTION_WINDOW,
    STEP_SIZE, MIN_ACTIVITY, COOLDOWN_SAMPLES, stAct, recOnes, z6, activityOf, varSamp,
    column, mean, sWit, List.range_succ, evalEnt, normalize_sequence,
    extract_temporal_features, mapWithIndex, varPop, scaleOf, gestureDistances,
    minDistance, bestOf, dtw_distance, dtwRow, dtwRowAux, dZero, gsOne, tZ8,
    DTW_THRESHOLD, SIMILARITY_MARGIN, secondBest, subT, similarityScore, sortVals,
    insertSorted, min_top_left, min_top_right, WithTop.coe_lt_top, WithTop.untop'_coe]

lemma stepIntegrated_wit_eval :
    stepIntegrated dZero sWit gsOne 2 stAct recOnes
      = (⟨[], COOLDOWN_SAMPLES, 0⟩, some ⟨"a", 0, 100⟩) := by
  norm_num [stepIntegrated, stepLoop, parseSample, parseFields, push, DETECTION_WINDOW,
    STEP_SIZE, MIN_ACTIVITY, COOLDOWN_SAMPLES, stAct, recOnes, z6, activityOf, varSamp,
    column, mean, sWit, List.range_succ, evalInt, normalize_sequence,
    extract_temporal_features, mapWithIndex, varPop, scaleOf, bestPair,
    dtw_distance, dtwRow, dtwRowAux, dZero, gsOne, tZ8,
    DTW_THRESHOLD_INTEGRATED, similarityScore,
    min_top_left, min_top_right, WithTop.coe_lt_top, WithTop.untop'_coe]

/-- Witness for C5: a concrete successful detection through each
detector. -/
theorem gesture_C5_witness :
    ((⟨[], COOLDOWN_SAMPLES, 0⟩ : DState).buffer = []
      ∧ (⟨[], COOLDOWN_SAMPLES, 0⟩ : DState).cooldown = COOLDOWN_SAMPLES
      ∧ (100 : ℚ) = max 0 (100 * (1 - (0 : ℚ) / DTW_THRESHOLD)))
    ∧ ((⟨[], COOLDOWN_SAMPLES, 0⟩ : DState).buffer = []
      ∧ (⟨[], COOLDOWN_SAMPLES, 0⟩ : DState).cooldown = COOLDOWN_SAMPLES
      ∧ (100 : ℚ) = max 0 (100 * (1 - (0 : ℚ) / DTW_THRESHOLD_INTEGRATED))) :=
  ⟨(gesture_C5 dZero sWit gsOne 2 stAct recOnes ⟨[], COOLDOWN_SAMPLES, 0⟩
      ⟨"a", 0, 100⟩).1 stepDetector_wit_eval,
    (gesture_C5 dZero sWit gsOne 2 stAct recOnes ⟨[], COOLDOWN_SAMPLES, 0⟩
      ⟨"a", 0, 100⟩).2 stepIntegrated_wit_eval⟩

/-! ## Cooldown and evaluation cadence (C3) -/

lemma push_length (buf : Mat) (x : Sample) :
    (push buf x).length = min (buf.length + 1) DETECTION_WINDOW := by
  unfold push
  by_cases h : DETECTION_WINDOW < (buf ++ [x]).length
  · rw [if_pos h, List.length_drop]
    simp only [List.length_append, List.length_singleton] at h ⊢
    omega
  · rw [if_neg h]
    simp only [List.length_append, List.length_singleton] at h ⊢
    omega

lemma le_push_length (L : ℕ) (buf : Mat) (x : Sample)
    (hL : L ≤ DETECTION_WINDOW) (hb : L ≤ buf.length) :
    L ≤ (push buf x).length := by
  rw [push_length]
  rcases Nat.le_total (buf.length + 1) DETECTION_WINDOW with hc | hc
  · rw [min_eq_left hc]; omega
  · rw [min_eq_right hc]; omega

lemma stepLoop_cooldown (s : ℚ → ℚ) (L : ℕ) (evalF : Mat → Option DetectionEvent)
    (st : DState) (rec : RecT) (v : Sample)
    (hv : parseSample rec = some v) (hcd : 0 < st.cooldown) :
    stepLoop s L evalF st rec
      = (⟨push st.buffer v, st.cooldown - 1, st.evalCounter⟩, none) := by
  unfold stepLoop
  rw [hv]
  simp only
  rw [if_pos hcd]

lemma evalTriggered_cooldown (L : ℕ) (st : DState) (rec : RecT)
    (hcd : 0 < st.cooldown) : evalTriggered L st rec = false := by
  unfold evalTriggered
  split
  · rfl
  · have h : st.cooldown ≠ 0 := by omega
    simp [h]

lemma evalTriggered_eq_true (L : ℕ) (st : DState) (rec : RecT) (v : Sample)
    (hv : parseSample rec = some v) :
    (evalTriggered L st rec = true ↔
      st.cooldown = 0 ∧ STEP_SIZE ≤ st.evalCounter + 1
        ∧ L ≤ (push st.buffer v).length) := by
  unfold evalTriggered
  rw [hv]
  simp [and_assoc]

lemma runLoop_cons (s : ℚ → ℚ) (L : ℕ) (evalF : Mat → Option DetectionEvent)
    (st : DState) (r : RecT) (rs : List RecT) :
    runLoop s L evalF st (r :: rs)
      = ((runLoop s L evalF (stepLoop s L evalF st r).1 rs).1,
          (stepLoop s L evalF st r).2.toList
            ++ (runLoop s L evalF (stepLoop s L evalF st r).1 rs).2) := rfl

lemma stepLoop_idle_step (s : ℚ → ℚ) (L : ℕ) (evalF : Mat → Option DetectionEvent)
    (st : DState) (rec : RecT) (v : Sample)
    (hv : parseSample rec = some v) (hcd : st.cooldown = 0)
    (hev : (stepLoop s L evalF st rec).2 = none) :
    (stepLoop s L evalF st rec).1
      = ⟨push st.buffer v, 0,
          if STEP_SIZE ≤ st.evalCounter + 1 ∧ L ≤ (push st.buffer v).length then 0
          else st.evalCounter + 1⟩ := by
  unfold stepLoop at hev ⊢
  rw [hv] at hev ⊢
  simp only at hev ⊢
  rw [if_neg (by omega : ¬ 0 < st.cooldown)] at hev ⊢
  by_cases htr : STEP_SIZE ≤ st.evalCounter + 1 ∧ L ≤ (push st.buffer v).length
  · rw [if_pos htr] at hev ⊢
    rw [if_pos htr]
    by_cases hact : activityOf s
        ((push st.buffer v).drop ((push st.buffer v).length - L)) < MIN_ACTIVITY
    · rw [if_pos hact]
      rw [hcd]
    · rw [if_neg hact] at hev ⊢
      cases he : evalF ((push st.buffer v).drop ((push st.buffer v).length - L)) with
      | some e => rw [he] at hev; simp at hev
      | none => simp [hcd]
  · rw [if_neg htr] at hev ⊢
    rw [if_neg htr]
    rw [hcd]

lemma cadence_aux (s : ℚ → ℚ) (L : ℕ) (evalF : Mat → Option DetectionEvent)
    (hL : L ≤ DETECTION_WINDOW) :
    ∀ (recs : List RecT) (st : DState) (k : ℕ),
      st.cooldown = 0 → st.evalCounter = k % STEP_SIZE → L ≤ st.buffer.length →
      (∀ r ∈ recs, (parseSample r).isSome = true) →
      (runLoop s L evalF st recs).2 = [] →
      ∀ i (hi : i < recs.length),
        (evalTriggered L (runLoop s L evalF st (recs.take i)).1 (recs.get ⟨i, hi⟩) = true
          ↔ STEP_SIZE ∣ (k + i + 1)) := by
  intro recs
  induction recs with
  | nil => intro st k _ _ _ _ _ i hi; simp at hi
  | cons r rs ih =>
    intro st k hcd hec hbuf hvalid hev i hi
    have hS : STEP_SIZE = 5 := rfl
    rw [hS] at hec
    obtain ⟨v, hv⟩ : ∃ v, parseSample r = some v :=
      Option.isSome_iff_exists.1 (hvalid r (List.mem_cons_self r rs))
    rw [runLoop_cons] at hev
    have hev0 : (stepLoop s L evalF st r).2 = none := by
      rcases List.append_eq_nil.1 hev with ⟨h1, _⟩
      cases hp : (stepLoop s L evalF st r).2 with
      | none => rfl
      | some e => rw [hp] at h1; exact absurd h1 (by simp)
    have hev2 : (runLoop s L evalF (stepLoop s L evalF st r).1 rs).2 = [] :=
      (List.append_eq_nil.1 hev).2
    have hst1 := stepLoop_idle_step s L evalF st r v hv hcd hev0
    have hlen1 : L ≤ (push st.buffer v).length := le_push_length L st.buffer v hL hbuf
    cases i with
    | zero =>
      have hget0 : (r :: rs).get ⟨0, hi⟩ = r := rfl
      have hstate0 : (runLoop s L evalF st ((r :: rs).take 0)).1 = st := rfl
      rw [hget0, hstate0, evalTriggered_eq_true L st r v hv, hS]
      constructor
      · rintro ⟨_, h2, _⟩
        omega
      · intro hdvd
        exact ⟨hcd, by omega, hlen1⟩
    | succ j =>
      have hj : j < rs.length := by simpa using hi
      rw [List.take_succ_cons, runLoop_cons]
      have hget : (r :: rs).get ⟨j + 1, hi⟩ = rs.get ⟨j, hj⟩ := rfl
      rw [hget]
      have harith : k + (j + 1) + 1 = (k + 1) + j + 1 := by omega
      rw [harith]
      refine ih (stepLoop s L evalF st r).1 (k + 1) ?_ ?_ ?_ ?_ hev2 j hj
      · rw [hst1]
      · rw [hst1, hS]
        simp only [hS]
        by_cases htr : 5 ≤ st.evalCounter + 1 ∧ L ≤ (push st.buffer v).length
        · rw [if_pos htr]
          rcases htr with ⟨h5, _⟩
          omega
        · rw [if_neg htr]
          have hno : ¬ 5 ≤ st.evalCounter + 1 := by
            intro hcon
            exact htr ⟨hcon, hlen1⟩
          omega
      · rw [hst1]
        exact hlen1
      · intro r' hr'
        exact hvalid r' (List.mem_cons_of_mem r hr')

/-- C3: (1) while `cooldown_counter > 0`, each accepted sample decrements
the counter by one, triggers no evaluation and emits no event; (2) from
an idle state (`cooldown = 0`, `evaluation_counter = 0`) whose buffer
already holds at least `template_length ≤ DETECTION_WINDOW` samples, on a
run of accepted samples that produces no detection, an evaluation is
triggered exactly at every `STEP_SIZE`-th accepted sample.  Stated for
the shared loop skeleton, hence for both detectors. -/
theorem gesture_C3 :
    (∀ (s : ℚ → ℚ) (L : ℕ) (evalF : Mat → Option DetectionEvent)
        (st : DState) (rec : RecT) (v : Sample),
        parseSample rec = some v → 0 < st.cooldown →
        stepLoop s L evalF st rec
            = (⟨push st.buffer v, st.cooldown - 1, st.evalCounter⟩, none)
          ∧ evalTriggered L st rec = false)
    ∧ ∀ (s : ℚ → ℚ) (L : ℕ) (evalF : Mat → Option DetectionEvent)
        (st : DState) (recs : List RecT),
        L ≤ DETECTION_WINDOW → st.cooldown = 0 → st.evalCounter = 0 →
        L ≤ st.buffer.length →
        (∀ r ∈ recs, (parseSample r).isSome = true) →
        (runLoop s L evalF st recs).2 = [] →
        ∀ i (hi : i < recs.length),
          (evalTriggered L (runLoop s L evalF st (recs.take i)).1 (recs.get ⟨i, hi⟩) = true
            ↔ STEP_SIZE ∣ (i + 1)) := by
  constructor
  · intro s L evalF st rec v hv hcd
    exact ⟨stepLoop_cooldown s L evalF st rec v hv hcd,
      evalTriggered_cooldown L st rec hcd⟩
  · intro s L evalF st recs hL hcd hec hbuf hvalid hev i hi
    have h := cadence_aux s L evalF hL recs st 0 hcd (by rw [hec, Nat.zero_mod])
      hbuf hvalid hev i hi
    rwa [Nat.zero_add] at h

/-- Window evaluator that never reports a detection. -/
def evalFNone : Mat → Option DetectionEvent := fun _ => none

/-- A valid serial record of six zeros. -/
def recZeros : RecT := [some 0, some 0, some 0, some 0, some 0, some 0]

/-- Idle start state for the cadence witness. -/
def stC3 : DState := ⟨[z6, z6], 0, 0⟩

/-- Five consecutive valid still records. -/
def recsC3 : List RecT := [recZeros, recZeros, recZeros, recZeros, recZeros]

/-- Witness for C3: a decrementing cooldown step, and a 5-record run that
triggers its evaluation exactly at the 5th sample. -/
theorem gesture_C3_witness :
    (stepLoop sWit 80 evalFEmit ⟨[], 3, 7⟩ recOnes
        = (⟨push [] [1, 1, 1, 1, 1, 1], 2, 7⟩, none)
      ∧ evalTriggered 80 ⟨[], 3, 7⟩ recOnes = false)
    ∧ evalTriggered 2 (runLoop sWit 2 evalFNone stC3 (recsC3.take 4)).1 recZeros
        = true := by
  constructor
  · exact gesture_C3.1 sWit 80 evalFEmit ⟨[], 3, 7⟩ recOnes [1, 1, 1, 1, 1, 1] rfl
      (by norm_num)
  · have h := (gesture_C3.2 sWit 2 evalFNone stC3 recsC3
      (by norm_num [DETECTION_WINDOW]) rfl rfl (by norm_num [stC3])
      (by
        intro r hr
        have hrz : r = recZeros := by
          simp only [recsC3, List.mem_cons, List.not_mem_nil, or_false] at hr
          rcases hr with h | h | h | h | h <;> exact h
        rw [hrz]
        rfl)
      (by
        norm_num [runLoop, stepLoop, parseSample, parseFields, recsC3, recZeros,
          stC3, z6, push, DETECTION_WINDOW, STEP_SIZE, MIN_ACTIVITY, activityOf,
          varSamp, column, mean, sWit, List.range_succ, evalFNone])
      4 (by norm_num [recsC3])).mpr (by norm_num [STEP_SIZE])
    exact h

/-! ## Emission condition (C1)

`run_detector` emits iff the best per-gesture distance passes the
threshold **and** the distinctiveness margin (or only one gesture is
registered); `run_integrated_detector` has no margin check and emits
whenever the best distance passes its threshold. -/

/-- C1 (amended): on an evaluation of an active window `w`,
`run_detector` emits a DetectionEvent iff the best per-gesture DTW
distance satisfies `best ≤ DTW_THRESHOLD` (equality accepted) and
`(second_best − best) > SIMILARITY_MARGIN` or exactly one gesture is
registered; `run_integrated_detector` instead emits iff
`best ≤ DTW_THRESHOLD` for its threshold, with no distinctiveness
condition. -/
theorem gesture_C1_amended (d : Sample → Sample → ℚ) (s : ℚ → ℚ)
    (gs : List (String × List Mat)) (w : Mat) :
    ((evalEnt d s gs w).isSome = true ↔
      ((bestOf (gestureDistances d (normalize_sequence s (extract_temporal_features s w)) gs)).2
          ≤ ((DTW_THRESHOLD : ℚ) : Val)
        ∧ (((SIMILARITY_MARGIN : ℚ) : Val) <
              subT (secondBest (gestureDistances d
                  (normalize_sequence s (extract_temporal_features s w)) gs))
                ((bestOf (gestureDistances d
                    (normalize_sequence s (extract_temporal_features s w)) gs)).2.untop' 0)
            ∨ gs.length = 1)))
    ∧ ((evalInt d s gs w).isSome = true ↔
      (bestPair d (normalize_sequence s (extract_temporal_features s w)) gs).2
        ≤ ((DTW_THRESHOLD_INTEGRATED : ℚ) : Val)) := by
  constructor
  · unfold evalEnt
    simp only []
    split
    case _ h1 =>
      split
      case _ h2 => simp [h1, h2]
      case _ h2 => simp [h1, h2]
    case _ h1 => simp [h1]
  · unfold evalInt
    simp only []
    split
    case _ h1 => simp [h1]
    case _ h1 => simp [h1]

/-- Two registered gestures with identical templates. -/
def gsTwo : List (String × List Mat) := [("a", [tZ8]), ("b", [tZ8])]

/-- The active window evaluated by the counterexample step. -/
def wC1 : Mat := [z6, o6]

/-- Counterexample to C1 as stated: on a concrete evaluation,
`run_integrated_detector` emits a DetectionEvent although two gestures
are registered and the distinctiveness condition
`(second_best − best) > SIMILARITY_MARGIN` is false (both per-gesture
distances are equal). -/
theorem gesture_C1_counterexample :
    (stepIntegrated dZero sWit gsTwo 2 stAct recOnes).2
        = some ⟨"a", 0, 100⟩
    ∧ ¬ (((SIMILARITY_MARGIN : ℚ) : Val) <
          subT (secondBest (gestureDistances dZero
              (normalize_sequence sWit (extract_temporal_features sWit wC1)) gsTwo))
            ((bestPair dZero
                (normalize_sequence sWit (extract_temporal_features sWit wC1)) gsTwo).2.untop' 0))
    ∧ gsTwo.length = 2 := by
  refine ⟨?_, ?_, rfl⟩
  · norm_num [stepIntegrated, stepLoop, parseSample, parseFields, push,
      DETECTION_WINDOW, STEP_SIZE, MIN_ACTIVITY, COOLDOWN_SAMPLES, stAct, recOnes,
      z6, o6, activityOf, varSamp, column, mean, sWit, List.range_succ, evalInt,
      normalize_sequence, extract_temporal_features, mapWithIndex, varPop, scaleOf,
      bestPair, dtw_distance, dtwRow, dtwRowAux, dZero, gsTwo, tZ8,
      DTW_THRESHOLD_INTEGRATED, similarityScore,
      min_top_left, min_top_right, WithTop.coe_lt_top, WithTop.untop'_coe]
  · norm_num [wC1, z6, o6, sWit, normalize_sequence, extract_temporal_features,
      mapWithIndex, varPop, scaleOf, column, mean, gestureDistances, minDistance,
      bestPair, dtw_distance, dtwRow, dtwRowAux, dZero, gsTwo, tZ8, secondBest,
      sortVals, insertSorted, subT, SIMILARITY_MARGIN,
      min_top_left, min_top_right, WithTop.coe_lt_top, WithTop.untop'_coe,
      List.range_succ]

end GestureDetector
